import Mathlib

/-! Verification of the DBML-generation core (`dbterd/core.py`): a shallow
embedding of its data model and functions, with theorems settling the
specification's claims about table/column matching, description resolution,
annotation emission, relationship emission and the generation driver. -/

namespace DbmlDocs

/-- The single-quote character (code point 39). -/
def squote : Char := Char.ofNat 39

/-- ASCII whitespace, as matched by the whitespace class in the source's
reference pattern. -/
def isPySpace (c : Char) : Bool :=
  c = ' ' || c = '\t' || c = '\n' || c = '\r' || c = Char.ofNat 11 || c = Char.ofNat 12

/-- ASCII word characters, as matched by the word class in the source's
reference pattern. -/
def isWordChar (c : Char) : Bool := c.isAlphanum || c = '_'

/-- Match a literal character sequence at the head of the input, returning the
remainder on success. -/
def dropLit : List Char → List Char → Option (List Char)
  | [], cs => some cs
  | _ :: _, [] => none
  | l :: ls, c :: cs => if c = l then dropLit ls cs else none

/-- Drop one optional occurrence of a character at the head of the input. -/
def dropOpt (a : Char) : List Char → List Char
  | [] => []
  | c :: cs => if c = a then cs else c :: cs

/-- Greedily take one or more word characters (the captured reference key). -/
def takeWord1 (cs : List Char) : Option (String × List Char) :=
  let w := cs.takeWhile isWordChar
  if w = [] then none else some (String.mk w, cs.dropWhile isWordChar)

/-- Match the body of the documentation-reference pattern, everything after the
optional leading quote: two opening braces, optional spaces, the literal
`doc(`, optional spaces, a double-quoted word (the key), optional spaces, a
closing parenthesis, optional spaces, two closing braces, then an optional
quote and an optional newline. -/
def matchCore (cs : List Char) : Option (String × List Char) :=
  match dropLit ['\x7b', '\x7b'] cs with
  | none => none
  | some cs1 =>
    match dropLit ("doc(".data) (cs1.dropWhile isPySpace) with
    | none => none
    | some cs3 =>
      match dropLit ['"'] (cs3.dropWhile isPySpace) with
      | none => none
      | some cs5 =>
        match takeWord1 cs5 with
        | none => none
        | some (k, cs6) =>
          match dropLit ['"'] cs6 with
          | none => none
          | some cs7 =>
            match dropLit [')'] (cs7.dropWhile isPySpace) with
            | none => none
            | some cs9 =>
              match dropLit ['\x7d', '\x7d'] (cs9.dropWhile isPySpace) with
              | none => none
              | some cs11 => some (k, dropOpt '\n' (dropOpt squote cs11))

/-- Match the full documentation-reference pattern at the head of the input:
an optional leading single quote followed by the pattern body. -/
def matchJinja : List Char → Option (String × List Char)
  | [] => none
  | c :: rest => if c = squote then matchCore rest else matchCore (c :: rest)

/-- Lookup in the documentation index (an association list keyed by
documentation-block name). -/
def docsGet (docs : List (String × String)) (k : String) : Option String :=
  (docs.find? (fun p => p.1 == k)).map Prod.snd

/-- Fueled left-to-right substitution of every occurrence of the reference
pattern: a match is replaced by the documentation entry for its key, or by the
empty string when the key is absent; a non-matching character is copied. -/
def subJinjaFuel (docs : List (String × String)) : Nat → List Char → List Char
  | 0, cs => cs
  | _ + 1, [] => []
  | fuel + 1, c :: cs =>
    match matchJinja (c :: cs) with
    | some (k, rest) => ((docsGet docs k).getD "").data ++ subJinjaFuel docs fuel rest
    | none => c :: subJinjaFuel docs fuel cs

/-- The description resolver: substitutes every occurrence of the
documentation-reference pattern in the text. -/
def ReplaceJinjaVariables (docs : List (String × String)) (text : String) : String :=
  String.mk (subJinjaFuel docs text.data.length text.data)

/-- Decides whether the reference pattern occurs anywhere in the input. -/
def hasJinjaRef : List Char → Bool
  | [] => false
  | c :: cs => (matchJinja (c :: cs)).isSome || hasJinjaRef cs

theorem dropLit_length_le : ∀ (ls cs rest : List Char), dropLit ls cs = some rest →
    rest.length ≤ cs.length := by
  intro ls
  induction ls with
  | nil => intro cs rest h; simp [dropLit] at h; simp [h]
  | cons l ls ih =>
    intro cs rest h
    cases cs with
    | nil => simp [dropLit] at h
    | cons c cs =>
      simp only [dropLit] at h
      split at h
      · exact Nat.le_trans (ih cs rest h) (Nat.le_succ _)
      · exact absurd h (by simp)

theorem dropLit_length_lt : ∀ (l : Char) (ls cs rest : List Char),
    dropLit (l :: ls) cs = some rest → rest.length < cs.length := by
  intro l ls cs rest h
  cases cs with
  | nil => simp [dropLit] at h
  | cons c cs =>
    simp only [dropLit] at h
    split at h
    · exact Nat.lt_succ_of_le (dropLit_length_le ls cs rest h)
    · exact absurd h (by simp)

theorem dropWhile_length_le (p : Char → Bool) :
    ∀ cs : List Char, (cs.dropWhile p).length ≤ cs.length := by
  intro cs
  induction cs with
  | nil => simp [List.dropWhile]
  | cons c cs ih =>
    simp only [List.dropWhile]
    split
    · exact Nat.le_trans ih (Nat.le_succ _)
    · exact Nat.le_refl _

theorem dropOpt_length_le (a : Char) : ∀ cs : List Char,
    (dropOpt a cs).length ≤ cs.length := by
  intro cs
  cases cs with
  | nil => simp [dropOpt]
  | cons c cs =>
    simp only [dropOpt]
    split
    · exact Nat.le_succ _
    · exact Nat.le_refl _

theorem takeWord1_length_le : ∀ (cs : List Char) (k : String) (rest : List Char),
    takeWord1 cs = some (k, rest) → rest.length ≤ cs.length := by
  intro cs k rest h
  simp only [takeWord1] at h
  split at h
  · exact absurd h (by simp)
  · have : rest = cs.dropWhile isWordChar := by
      have := congrArg (fun o => Option.map Prod.snd o) h
      simpa using this.symm
    rw [this]
    exact dropWhile_length_le _ _

theorem matchCore_length_lt : ∀ (cs : List Char) (k : String) (rest : List Char),
    matchCore cs = some (k, rest) → rest.length < cs.length := by
  intro cs k rest h
  simp only [matchCore] at h
  split at h
  · simp at h
  rename_i cs1 h1
  split at h
  · simp at h
  rename_i cs3 h3
  split at h
  · simp at h
  rename_i cs5 h5
  split at h
  · simp at h
  rename_i k6 cs6 h6
  split at h
  · simp at h
  rename_i cs7 h7
  split at h
  · simp at h
  rename_i cs9 h9
  split at h
  · simp at h
  rename_i cs11 h11
  simp only [Option.some.injEq, Prod.mk.injEq] at h
  have hrest : rest = dropOpt '\n' (dropOpt squote cs11) := h.2.symm
  have c11 : cs11.length ≤ (cs9.dropWhile isPySpace).length :=
    dropLit_length_le _ _ _ h11
  have c9 : cs9.length ≤ (cs7.dropWhile isPySpace).length :=
    dropLit_length_le _ _ _ h9
  have c7 : cs7.length ≤ cs6.length := dropLit_length_le _ _ _ h7
  have c6 : cs6.length ≤ cs5.length := takeWord1_length_le _ _ _ h6
  have c5 : cs5.length ≤ (cs3.dropWhile isPySpace).length :=
    dropLit_length_le _ _ _ h5
  have c3 : cs3.length ≤ (cs1.dropWhile isPySpace).length :=
    dropLit_length_le _ _ _ h3
  have c1 : cs1.length < cs.length := dropLit_length_lt _ _ _ _ h1
  have hr : rest.length ≤ cs11.length := by
    rw [hrest]
    exact Nat.le_trans (dropOpt_length_le _ _) (dropOpt_length_le _ _)
  have d9 := dropWhile_length_le isPySpace cs9
  have d7 := dropWhile_length_le isPySpace cs7
  have d3 := dropWhile_length_le isPySpace cs3
  have d1 := dropWhile_length_le isPySpace cs1
  omega

theorem matchJinja_length_lt : ∀ (cs : List Char) (k : String) (rest : List Char),
    matchJinja cs = some (k, rest) → rest.length < cs.length := by
  intro cs k rest h
  cases cs with
  | nil => simp [matchJinja] at h
  | cons c cs =>
    simp only [matchJinja] at h
    split at h
    · exact Nat.lt_trans (matchCore_length_lt _ _ _ h) (Nat.lt_succ_self _)
    · exact matchCore_length_lt _ _ _ h

theorem subJinjaFuel_fuel_irrel (docs : List (String × String)) :
    ∀ (f1 : Nat) (cs : List Char) (f2 : Nat), cs.length ≤ f1 → cs.length ≤ f2 →
    subJinjaFuel docs f1 cs = subJinjaFuel docs f2 cs := by
  intro f1
  induction f1 with
  | zero =>
    intro cs f2 h1 _
    have : cs = [] := List.eq_nil_of_length_eq_zero (Nat.le_zero.mp h1)
    subst this
    cases f2 <;> rfl
  | succ f1 ih =>
    intro cs f2 h1 h2
    cases cs with
    | nil => cases f2 <;> rfl
    | cons c cs =>
      cases f2 with
      | zero => exact absurd h2 (by simp)
      | succ f2 =>
        simp only [subJinjaFuel]
        cases hm : matchJinja (c :: cs) with
        | some kr =>
          obtain ⟨k, rest⟩ := kr
          have hlt := matchJinja_length_lt _ _ _ hm
          simp only []
          rw [ih rest f2 (by simp at hlt h1 ⊢; omega) (by simp at hlt h2 ⊢; omega)]
        | none =>
          simp only []
          rw [ih cs f2 (by simp at h1 ⊢; omega) (by simp at h2 ⊢; omega)]

theorem subJinjaFuel_id_of_no_ref (docs : List (String × String)) :
    ∀ (fuel : Nat) (cs : List Char), hasJinjaRef cs = false →
    subJinjaFuel docs fuel cs = cs := by
  intro fuel
  induction fuel with
  | zero => intro cs _; rfl
  | succ fuel ih =>
    intro cs h
    cases cs with
    | nil => rfl
    | cons c cs =>
      cases hm : matchJinja (c :: cs) with
      | some kr => exact absurd h (by simp [hasJinjaRef, hm])
      | none =>
        have h2 : hasJinjaRef cs = false := by
          simp [hasJinjaRef, hm] at h
          exact h
        simp only [subJinjaFuel, hm]
        rw [ih cs h2]

/-- C9: for every string containing no occurrence of the documentation
reference pattern, the description resolver returns the string unchanged. -/
theorem resolver_identity_no_pattern (docs : List (String × String)) (s : String)
    (h : hasJinjaRef s.data = false) : ReplaceJinjaVariables docs s = s := by
  unfold ReplaceJinjaVariables
  rw [subJinjaFuel_id_of_no_ref docs _ _ h]

/-- Witness for C9 at a concrete reference-free string. -/
theorem resolver_identity_no_pattern_witness :
    hasJinjaRef "hello docs".data = false ∧
      ReplaceJinjaVariables [("k", "v")] "hello docs" = "hello docs" :=
  ⟨by decide, resolver_identity_no_pattern [("k", "v")] "hello docs" (by decide)⟩

/-- C4 counterexample: a lone documentation reference with an absent key is
removed entirely by the resolver (output is empty), not left as literal text
as the claim states. -/
theorem resolver_unresolved_cex :
    ReplaceJinjaVariables [] "\x7b\x7b doc(\"missing\") \x7d\x7d" = "" ∧
      ("" : String) ≠ "\x7b\x7b doc(\"missing\") \x7d\x7d" := by
  constructor
  · decide
  · decide

/-- C4 (amended): when the key of a matched documentation reference is absent
from the index, the resolver drops the whole match, producing the same result
as resolving only the remainder after the match — the unresolvable reference
is removed (replaced by empty text), not kept as literal text. -/
theorem resolver_unresolved_removed (docs : List (String × String)) (c : Char)
    (cs : List Char) (k : String) (rest : List Char)
    (hm : matchJinja (c :: cs) = some (k, rest)) (hk : docsGet docs k = none) :
    ReplaceJinjaVariables docs (String.mk (c :: cs)) =
      ReplaceJinjaVariables docs (String.mk rest) := by
  unfold ReplaceJinjaVariables
  have hlt := matchJinja_length_lt _ _ _ hm
  have h1 : (String.mk (c :: cs)).data = c :: cs := rfl
  have h2 : (String.mk rest).data = rest := rfl
  rw [h1, h2]
  simp only [List.length_cons, subJinjaFuel, hm, hk]
  have hnil : ((Option.getD (none : Option String) "").data : List Char) = [] := rfl
  rw [hnil, List.nil_append]
  rw [subJinjaFuel_fuel_irrel docs cs.length rest rest.length
    (by simp at hlt; omega) (Nat.le_refl _)]

/-- Witness for C4 at a concrete unresolved reference followed by a tail. -/
theorem resolver_unresolved_removed_witness :
    ReplaceJinjaVariables [] (String.mk ('\x7b' :: "\x7b doc(\"gone\") \x7d\x7dtail".data)) =
      ReplaceJinjaVariables [] (String.mk "tail".data) :=
  resolver_unresolved_removed [] '\x7b' "\x7b doc(\"gone\") \x7d\x7dtail".data "gone"
    "tail".data (by decide) (by decide)

/-- Python-style exceptions surfaced by the source when inputs are malformed:
missing dictionary keys, missing regex matches, and operations on `None`. -/
inductive PyError where
  | keyError (k : String)
  | indexError
  | typeError
deriving DecidableEq

/-- The `relationships` value of a structured test entry; either sub-key may be
missing in a malformed schema. -/
structure RelInfo where
  «to» : Option String
  field : Option String
deriving DecidableEq

/-- One entry of a schema column's `tests` list: either a bare string tag, or a
mapping (which carries a `relationships` value when that key is present). -/
inductive SchemaTest where
  | tag (s : String)
  | map (rel : Option RelInfo)
deriving DecidableEq

/-- A schema column: `name`, optional `description`, optional `tests` list. -/
structure SchemaColumn where
  name : String
  description : Option String
  tests : Option (List SchemaTest)
deriving DecidableEq

/-- A schema model: `name`, optional `description`, ordered `columns`. -/
structure SchemaModel where
  name : String
  description : Option String
  columns : List SchemaColumn
deriving DecidableEq

/-- The loaded schema: the ordered `models` sequence. -/
structure Schema where
  models : List SchemaModel
deriving DecidableEq

/-- One column of a catalog model: `name` and physical `type`. -/
structure CatalogColumn where
  name : String
  type : String
deriving DecidableEq

/-- The `metadata` object of a catalog model. -/
structure CatalogMetadata where
  name : String
deriving DecidableEq

/-- A catalog model: its `metadata` and its columns in declaration order. -/
structure CatalogModel where
  metadata : CatalogMetadata
  columns : List CatalogColumn
deriving DecidableEq

/-- The loaded catalog: the `nodes` mapping, in insertion order, from opaque
model identifier to catalog model. -/
structure Catalog where
  nodes : List (String × CatalogModel)
deriving DecidableEq

/-- Python `str.lower()` restricted to ASCII case mapping. -/
def pyLower (s : String) : String := String.mk (s.data.map Char.toLower)

/-- Python `str.upper()` restricted to ASCII case mapping. -/
def pyUpper (s : String) : String := String.mk (s.data.map Char.toUpper)

/-- Python `s.replace(squote, empty)`: remove every single-quote character. -/
def removeQuotes (s : String) : String :=
  String.mk (s.data.filter (fun c => c ≠ squote))

/-- Decides whether two adjacent opening braces occur in the input (the
source's containment test on the description). -/
def hasDoubleBrace : List Char → Bool
  | c1 :: c2 :: rest => (c1 = '\x7b' && c2 = '\x7b') || hasDoubleBrace (c2 :: rest)
  | _ => false

/-- The description formatter: empty when no description field is present;
when the description contains two opening braces it is passed through the
resolver and wrapped; otherwise its single quotes are removed and it is
wrapped. -/
def ParseDescription (docs : List (String × String)) : Option String → String
  | none => ""
  | some d =>
    if hasDoubleBrace d.data then
      "Note: \x27" ++ ReplaceJinjaVariables docs d ++ "\x27"
    else
      "Note: \x27" ++ removeQuotes d ++ "\x27"

/-- C7 counterexample: a description containing both a resolvable reference and
a literal single quote keeps that quote in the wrapped text (the wrapped
output carries three single quotes, where the claim allows exactly two). -/
theorem parse_description_quote_cex :
    ParseDescription [("k", "v")]
        (some "it\x27s \x7b\x7b doc(\"k\") \x7d\x7d") = "Note: \x27it\x27s v\x27" ∧
      ("Note: \x27it\x27s v\x27".data.filter (fun c => c = squote)).length = 3 := by
  constructor
  · decide
  · decide

/-- C7 (amended): the formatter returns empty for a missing description; a
description containing two opening braces is resolved and wrapped with no
quote stripping of the resolved text; a description without them has its
single quotes removed and is wrapped, so in that branch the inner text is
quote-free. -/
theorem parse_description_branches (docs : List (String × String)) :
    ParseDescription docs none = "" ∧
      (∀ d : String, hasDoubleBrace d.data = true →
        ParseDescription docs (some d) =
          "Note: \x27" ++ ReplaceJinjaVariables docs d ++ "\x27") ∧
      (∀ d : String, hasDoubleBrace d.data = false →
        ParseDescription docs (some d) = "Note: \x27" ++ removeQuotes d ++ "\x27" ∧
          ∀ c ∈ (removeQuotes d).data, c ≠ squote) := by
  refine ⟨rfl, fun d hd => ?_, fun d hd => ⟨?_, fun c hc => ?_⟩⟩
  · simp [ParseDescription, hd]
  · simp [ParseDescription, hd]
  · unfold removeQuotes at hc
    have := List.of_mem_filter hc
    simpa using this

/-- Witness for C7 at concrete descriptions for each branch. -/
theorem parse_description_branches_witness :
    ParseDescription [] none = "" ∧
      ParseDescription [] (some "ab\x7b\x7bcd") =
        "Note: \x27" ++ ReplaceJinjaVariables [] "ab\x7b\x7bcd" ++ "\x27" ∧
      ParseDescription [] (some "plain") =
        "Note: \x27" ++ removeQuotes "plain" ++ "\x27" :=
  ⟨(parse_description_branches []).1,
    (parse_description_branches []).2.1 "ab\x7b\x7bcd" (by decide),
    ((parse_description_branches []).2.2 "plain" (by decide)).1⟩

theorem string_data_ext {s t : String} (h : s.data = t.data) : s = t := by
  cases s with
  | mk d1 =>
    cases t with
    | mk d2 => exact congrArg String.mk h

theorem data_append (s t : String) : (s ++ t).data = s.data ++ t.data := rfl

theorem str_append_assoc (a b c : String) : a ++ b ++ c = a ++ (b ++ c) :=
  string_data_ext (by simp [data_append])

theorem str_length_append (s t : String) : (s ++ t).length = s.length + t.length :=
  List.length_append s.data t.data

theorem find?_first {α : Type} (p : α → Bool) :
    ∀ l : List α,
      (∀ a, l.find? p = some a →
        p a = true ∧ ∃ l1 l2, l = l1 ++ a :: l2 ∧ ∀ x ∈ l1, p x = false) ∧
      (l.find? p = none → ∀ x ∈ l, p x = false) := by
  intro l
  induction l with
  | nil =>
    refine ⟨fun a h => ?_, fun _ x hx => ?_⟩
    · simp [List.find?] at h
    · simp at hx
  | cons b l ih =>
    refine ⟨fun a h => ?_, fun h x hx => ?_⟩
    · simp only [List.find?] at h
      split at h
      · rename_i hb
        have hab : b = a := by simpa using h
        subst hab
        exact ⟨hb, [], l, rfl, fun x hx => by simp at hx⟩
      · rename_i hb
        obtain ⟨hp, l1, l2, hdec, hpre⟩ := ih.1 a h
        refine ⟨hp, b :: l1, l2, by rw [hdec]; rfl, fun x hx => ?_⟩
        rcases List.mem_cons.mp hx with hx | hx
        · subst hx; exact hb
        · exact hpre x hx
    · simp only [List.find?] at h
      split at h
      · simp at h
      · rename_i hb
        rcases List.mem_cons.mp hx with hx2 | hx2
        · subst hx2; exact hb
        · exact ih.2 h x hx2

/-- Find the schema model whose name equals the lower-cased catalog table
name; first match wins (the source's loop with a break). -/
def findSchemaModel (sch : Schema) (name : String) : Option SchemaModel :=
  sch.models.find? (fun m => m.name == pyLower name)

/-- Find the schema column whose name equals the lower-cased catalog column
name; first match wins (the source's loop with a break). -/
def findSchemaColumn (sm : SchemaModel) (name : String) : Option SchemaColumn :=
  sm.columns.find? (fun c => c.name == pyLower name)

/-- C1 counterexample: a schema table named `Orders` is not found for the
catalog table name `Orders`, although the two names are equal ignoring case
(they are identical), because the lookup compares the schema name verbatim
against the lower-cased catalog name. -/
theorem findTable_case_insensitive_cex :
    findSchemaModel (Schema.mk [SchemaModel.mk "Orders" none []]) "Orders" = none ∧
      pyLower "Orders" = pyLower "Orders" :=
  ⟨by decide, rfl⟩

/-- C1 (amended): the table and column lookups return the first entry of the
ordered sequence whose stored name equals the lower-cased probe name; they
succeed exactly when some entry's name is the lower-cased probe, so matching
is case-insensitive only on the catalog side (the schema-side name must
already be lowercase to be found). -/
theorem findTable_lowercase_lookup :
    (∀ (sch : Schema) (name : String) (m : SchemaModel),
        findSchemaModel sch name = some m →
          m.name = pyLower name ∧
            ∃ l1 l2, sch.models = l1 ++ m :: l2 ∧ ∀ x ∈ l1, x.name ≠ pyLower name) ∧
      (∀ (sch : Schema) (name : String),
        findSchemaModel sch name = none → ∀ m ∈ sch.models, m.name ≠ pyLower name) ∧
      (∀ (sm : SchemaModel) (name : String) (c : SchemaColumn),
        findSchemaColumn sm name = some c →
          c.name = pyLower name ∧
            ∃ l1 l2, sm.columns = l1 ++ c :: l2 ∧ ∀ x ∈ l1, x.name ≠ pyLower name) ∧
      (∀ (sm : SchemaModel) (name : String),
        findSchemaColumn sm name = none → ∀ c ∈ sm.columns, c.name ≠ pyLower name) := by
  refine ⟨fun sch name m h => ?_, fun sch name h m hm => ?_,
    fun sm name c h => ?_, fun sm name h c hc => ?_⟩
  · unfold findSchemaModel at h
    obtain ⟨hp, l1, l2, hdec, hpre⟩ :=
      (find?_first (fun m => m.name == pyLower name) sch.models).1 m h
    exact ⟨by simpa using hp, l1, l2, hdec, fun x hx => by simpa using hpre x hx⟩
  · unfold findSchemaModel at h
    have := (find?_first (fun m => m.name == pyLower name) sch.models).2 h m hm
    simpa using this
  · unfold findSchemaColumn at h
    obtain ⟨hp, l1, l2, hdec, hpre⟩ :=
      (find?_first (fun c => c.name == pyLower name) sm.columns).1 c h
    exact ⟨by simpa using hp, l1, l2, hdec, fun x hx => by simpa using hpre x hx⟩
  · unfold findSchemaColumn at h
    have := (find?_first (fun c => c.name == pyLower name) sm.columns).2 h c hc
    simpa using this

/-- Witness for C1: the lowercase schema entry `orders` is found for the
catalog name `ORDERS`, and it is the first matching entry. -/
theorem findTable_lowercase_lookup_witness :
    (SchemaModel.mk "orders" none []).name = pyLower "ORDERS" ∧
      ∃ l1 l2, (Schema.mk [SchemaModel.mk "orders" none []]).models =
        l1 ++ SchemaModel.mk "orders" none [] :: l2 ∧
          ∀ x ∈ l1, x.name ≠ pyLower "ORDERS" :=
  findTable_lowercase_lookup.1 (Schema.mk [SchemaModel.mk "orders" none []])
    "ORDERS" (SchemaModel.mk "orders" none []) (by decide)

/-- Translate one test entry to its annotation tag, following the source's
if/elif chain: only the exact strings `not_null` and `unique` produce tags. -/
def testTag : SchemaTest → Option String
  | SchemaTest.tag s =>
    if s = "not_null" then some "not null"
    else if s = "unique" then some "unique, pk" else none
  | SchemaTest.map _ => none

/-- Python `", ".join`. -/
def commaJoin : List String → String
  | [] => ""
  | [s] => s
  | s :: rest => s ++ ", " ++ commaJoin rest

/-- The annotation entries collected for a matched schema column: tags from
the tests in order, then the formatted description when it is nonempty. -/
def columnDocsList (docs : List (String × String)) (c : SchemaColumn) :
    List String :=
  (match c.tests with
   | some ts => ts.filterMap testTag
   | none => []) ++
  (if ParseDescription docs c.description = "" then []
   else [ParseDescription docs c.description])

/-- The bracketed annotation block for a column; empty when the schema column
was not found or nothing was collected. -/
def column_tests_and_description (docs : List (String × String)) :
    Option SchemaColumn → String
  | none => ""
  | some c =>
    if columnDocsList docs c = [] then ""
    else "[" ++ commaJoin (columnDocsList docs c) ++ "]"

/-- One emitted column line: catalog-side name, type and annotation block,
each separated by one space, with a trailing space before the newline. -/
def writeColumnLine (docs : List (String × String)) (sm : SchemaModel)
    (cc : CatalogColumn) : String :=
  cc.name ++ " " ++ cc.type ++ " " ++
    column_tests_and_description docs (findSchemaColumn sm cc.name) ++ " \n"

/-- Emit one table block. Emission fails with the TypeError the source raises
when the catalog table has no schema counterpart, because the description
formatter is applied to `None`. -/
def WriteTable (docs : List (String × String)) (sch : Schema)
    (model : CatalogModel) : Except PyError String :=
  match findSchemaModel sch model.metadata.name with
  | none => Except.error PyError.typeError
  | some schemaModel =>
    Except.ok ("Table " ++ model.metadata.name ++ " \x7b \n" ++
      String.join (model.columns.map (writeColumnLine docs schemaModel)) ++
      ParseDescription docs schemaModel.description ++ " \n\x7d \n")

theorem append_empty_str (s : String) : s ++ "" = s :=
  string_data_ext (by simp [data_append])

/-- C2 counterexample: table emission for a catalog table with no schema
counterpart fails with a TypeError instead of skipping the table. -/
theorem writeTable_missing_schema_cex :
    WriteTable [] (Schema.mk []) (CatalogModel.mk (CatalogMetadata.mk "X") []) =
      Except.error PyError.typeError := rfl

/-- C2 (amended): a catalog column with no schema counterpart is non-fatal and
is emitted with an empty annotation block, but a catalog table with no schema
counterpart makes table emission raise a TypeError, aborting the run rather
than skipping the table. -/
theorem missing_match_behavior :
    (∀ (docs : List (String × String)) (sch : Schema) (model : CatalogModel),
        findSchemaModel sch model.metadata.name = none →
          WriteTable docs sch model = Except.error PyError.typeError) ∧
      (∀ (docs : List (String × String)) (sm : SchemaModel) (cc : CatalogColumn),
        findSchemaColumn sm cc.name = none →
          writeColumnLine docs sm cc = cc.name ++ " " ++ cc.type ++ " " ++ " \n") := by
  constructor
  · intro docs sch model h
    unfold WriteTable
    rw [h]
  · intro docs sm cc h
    unfold writeColumnLine
    rw [h]
    show cc.name ++ " " ++ cc.type ++ " " ++ "" ++ " \n" = _
    rw [append_empty_str]

/-- Witness for C2 at a concrete missing table and a concrete missing column. -/
theorem missing_match_behavior_witness :
    WriteTable [] (Schema.mk [])
        (CatalogModel.mk (CatalogMetadata.mk "X") []) =
      Except.error PyError.typeError ∧
      writeColumnLine [] (SchemaModel.mk "m" none [])
          (CatalogColumn.mk "a" "int") = "a" ++ " " ++ "int" ++ " " ++ " \n" :=
  ⟨missing_match_behavior.1 [] (Schema.mk [])
      (CatalogModel.mk (CatalogMetadata.mk "X") []) (by decide),
    missing_match_behavior.2 [] (SchemaModel.mk "m" none [])
      (CatalogColumn.mk "a" "int") (by decide)⟩

/-- C5 counterexample: the emitted annotation block capitalizes `Note:`, so it
differs from the claimed block with lowercase `note:`. -/
theorem note_casing_cex :
    column_tests_and_description []
        (some (SchemaColumn.mk "id" (some "plain")
          (some [SchemaTest.tag "not_null", SchemaTest.tag "unique"]))) =
      "[not null, unique, pk, Note: \x27plain\x27]" ∧
      ("[not null, unique, pk, Note: \x27plain\x27]" : String) ≠
        "[not null, unique, pk, note: \x27plain\x27]" :=
  ⟨by decide, by decide⟩

/-- C5 (amended): a schema column whose tests are `[not_null, unique]` and
whose description is plain text (no reference pattern, no single quotes) gets
the annotation block `[not null, unique, pk, Note: <desc>]` in exactly that
order, with a capitalized `Note:` rather than the claimed lowercase `note:`. -/
theorem note_block_order (docs : List (String × String)) (name d : String)
    (hb : hasDoubleBrace d.data = false) (hq : ∀ c ∈ d.data, c ≠ squote) :
    column_tests_and_description docs
        (some (SchemaColumn.mk name (some d)
          (some [SchemaTest.tag "not_null", SchemaTest.tag "unique"]))) =
      "[not null, unique, pk, Note: \x27" ++ d ++ "\x27]" := by
  have hrq : removeQuotes d = d := by
    unfold removeQuotes
    have : d.data.filter (fun c => c ≠ squote) = d.data :=
      List.filter_eq_self.mpr (fun a ha => by simpa using hq a ha)
    rw [this]
  have hP : ParseDescription docs (some d) = "Note: \x27" ++ d ++ "\x27" := by
    simp [ParseDescription, hb, hrq]
  have hne : ("Note: \x27" ++ d ++ "\x27" : String) ≠ "" := by
    intro hc
    have hl := congrArg String.length hc
    rw [str_length_append, str_length_append] at hl
    have h7 : ("Note: \x27" : String).length = 7 := rfl
    have h1 : ("\x27" : String).length = 1 := rfl
    have h0 : ("" : String).length = 0 := rfl
    omega
  have hlist : columnDocsList docs
      (SchemaColumn.mk name (some d)
        (some [SchemaTest.tag "not_null", SchemaTest.tag "unique"])) =
      ["not null", "unique, pk", "Note: \x27" ++ d ++ "\x27"] := by
    unfold columnDocsList
    simp [testTag, hP, hne]
  simp only [column_tests_and_description]
  rw [hlist]
  have hnn : (["not null", "unique, pk", "Note: \x27" ++ d ++ "\x27"] :
      List String) ≠ [] := by simp
  rw [if_neg hnn]
  have e1 : ("[not null, unique, pk, Note: \x27" : String) =
      "[" ++ "not null" ++ ", " ++ "unique, pk" ++ ", " ++ "Note: \x27" := by decide
  have e2 : ("\x27]" : String) = "\x27" ++ "]" := by decide
  have e3 : ("[not null, unique, pk, Note: \x27" ++ d ++ "\x27]" : String) =
      "[" ++ "not null" ++ ", " ++ "unique, pk" ++ ", " ++ "Note: \x27" ++ d ++
        ("\x27" ++ "]") := by rw [← e2, ← e1]
  rw [e3]
  show "[" ++ commaJoin _ ++ "]" = _
  simp only [commaJoin, str_append_assoc]

/-- Witness for C5 at the concrete description `plain`. -/
theorem note_block_order_witness :
    column_tests_and_description []
        (some (SchemaColumn.mk "id" (some "plain")
          (some [SchemaTest.tag "not_null", SchemaTest.tag "unique"]))) =
      "[not null, unique, pk, Note: \x27" ++ "plain" ++ "\x27]" :=
  note_block_order [] "id" "plain" (by decide) (by decide)

/-- C10: only the exact tags `not_null` and `unique` contribute annotation
tags; any other test entry — any other bare string tag and every mapping
entry, including relationship tests — contributes nothing to the annotation
block, silently and without error. -/
theorem only_not_null_unique_tags (t : SchemaTest)
    (h1 : t ≠ SchemaTest.tag "not_null") (h2 : t ≠ SchemaTest.tag "unique") :
    testTag t = none ∧
      ∀ (docs : List (String × String)) (name : String) (desc : Option String)
        (l1 l2 : List SchemaTest),
        column_tests_and_description docs
            (some (SchemaColumn.mk name desc (some (l1 ++ t :: l2)))) =
          column_tests_and_description docs
            (some (SchemaColumn.mk name desc (some (l1 ++ l2)))) := by
  have ht : testTag t = none := by
    cases t with
    | tag s =>
      have hs1 : ¬s = "not_null" := fun hs => h1 (congrArg SchemaTest.tag hs)
      have hs2 : ¬s = "unique" := fun hs => h2 (congrArg SchemaTest.tag hs)
      simp [testTag, hs1, hs2]
    | map r => rfl
  refine ⟨ht, fun docs name desc l1 l2 => ?_⟩
  simp only [column_tests_and_description, columnDocsList,
    List.filterMap_append, List.filterMap_cons, ht]

/-- Witness for C10: the tag `accepted_values` contributes nothing. -/
theorem only_not_null_unique_tags_witness :
    column_tests_and_description []
        (some (SchemaColumn.mk "c" none
          (some [SchemaTest.tag "not_null", SchemaTest.tag "accepted_values"]))) =
      column_tests_and_description []
        (some (SchemaColumn.mk "c" none (some [SchemaTest.tag "not_null"]))) :=
  (only_not_null_unique_tags (SchemaTest.tag "accepted_values") (by decide)
    (by decide)).2 [] "c" none [SchemaTest.tag "not_null"] []

/-- Take characters up to the next single quote; `none` when no quote
follows. -/
def takeUntilQuote : List Char → Option (List Char)
  | [] => none
  | c :: rest =>
    if c = squote then some []
    else (takeUntilQuote rest).map (fun l => c :: l)

/-- The first single-quoted literal in the input with its quotes removed: the
first (non-greedy, leftmost) match of the source's quoted-literal pattern;
`none` when no such match exists, where the source raises an IndexError. -/
def firstQuoted : List Char → Option (List Char)
  | [] => none
  | c :: rest => if c = squote then takeUntilQuote rest else firstQuoted rest

/-- Process one test entry of a column for relationship emission: a mapping
carrying a `relationships` value produces one reference line or fails the run
exactly as the source raises (missing `to` sub-key: KeyError; no quoted
literal in the `to` expression: IndexError; missing `field` sub-key:
KeyError); every other entry produces no output. -/
def writeRelTest (mname cname : String) : SchemaTest → Except PyError String
  | SchemaTest.tag _ => Except.ok ""
  | SchemaTest.map none => Except.ok ""
  | SchemaTest.map (some r) =>
    match r.«to» with
    | none => Except.error (PyError.keyError "to")
    | some te =>
      match firstQuoted (pyUpper te).data with
      | none => Except.error PyError.indexError
      | some tgt =>
        match r.field with
        | none => Except.error (PyError.keyError "field")
        | some fe =>
          Except.ok ("Ref: " ++ String.mk tgt ++ "." ++ pyUpper fe ++ " > " ++
            pyUpper mname ++ "." ++ pyUpper cname ++ " \n")

/-- Process the test entries of one column in order, concatenating the
produced lines; the first fault aborts. -/
def runTests (mname cname : String) : List SchemaTest → Except PyError String
  | [] => Except.ok ""
  | t :: ts =>
    match writeRelTest mname cname t with
    | Except.error e => Except.error e
    | Except.ok s =>
      match runTests mname cname ts with
      | Except.error e => Except.error e
      | Except.ok s2 => Except.ok (s ++ s2)

/-- Process one column: a column without a `tests` key contributes nothing. -/
def runColumn (mname : String) (c : SchemaColumn) : Except PyError String :=
  match c.tests with
  | none => Except.ok ""
  | some ts => runTests mname c.name ts

/-- Process the columns of one model in order; the first fault aborts. -/
def runColumns (mname : String) : List SchemaColumn → Except PyError String
  | [] => Except.ok ""
  | c :: cs =>
    match runColumn mname c with
    | Except.error e => Except.error e
    | Except.ok s =>
      match runColumns mname cs with
      | Except.error e => Except.error e
      | Except.ok s2 => Except.ok (s ++ s2)

/-- Process all schema models in order; the first fault aborts. -/
def runModels : List SchemaModel → Except PyError String
  | [] => Except.ok ""
  | m :: ms =>
    match runColumns m.name m.columns with
    | Except.error e => Except.error e
    | Except.ok s =>
      match runModels ms with
      | Except.error e => Except.error e
      | Except.ok s2 => Except.ok (s ++ s2)

/-- The relationship emitter: scans every model, column and test entry of the
schema in order and emits one reference line per relationship constraint. -/
def WriteRelationship (sch : Schema) : Except PyError String :=
  runModels sch.models

/-- C6: a well-formed relationship test produces one reference line built from
the quoted literal of the upper-cased `to` expression, the upper-cased target
field, and the upper-cased source table and column names; in particular the
claim's example schema yields exactly the claimed reference line (with the
source's trailing space and newline). -/
theorem relationship_line_format :
    (∀ (mname cname : String) (r : RelInfo) (te fe : String) (tgt : List Char),
        r.«to» = some te → r.field = some fe →
        firstQuoted (pyUpper te).data = some tgt →
        writeRelTest mname cname (SchemaTest.map (some r)) =
          Except.ok ("Ref: " ++ String.mk tgt ++ "." ++ pyUpper fe ++ " > " ++
            pyUpper mname ++ "." ++ pyUpper cname ++ " \n")) ∧
      WriteRelationship (Schema.mk [SchemaModel.mk "line_items" none
          [SchemaColumn.mk "order_id" none
            (some [SchemaTest.map (some (RelInfo.mk (some "ref(\x27orders\x27)")
              (some "id")))])]]) =
        Except.ok "Ref: ORDERS.ID > LINE_ITEMS.ORDER_ID \n" := by
  constructor
  · intro mname cname r te fe tgt h1 h2 h3
    obtain ⟨rto, rfield⟩ := r
    simp only at h1 h2
    subst h1
    subst h2
    simp [writeRelTest, h3]
  · rfl

/-- Witness for C6 at the claim's concrete relationship test. -/
theorem relationship_line_format_witness :
    writeRelTest "line_items" "order_id"
        (SchemaTest.map (some (RelInfo.mk (some "ref(\x27orders\x27)")
          (some "id")))) =
      Except.ok ("Ref: " ++ String.mk "ORDERS".data ++ "." ++ pyUpper "id" ++
        " > " ++ pyUpper "line_items" ++ "." ++ pyUpper "order_id" ++ " \n") :=
  relationship_line_format.1 "line_items" "order_id"
    (RelInfo.mk (some "ref(\x27orders\x27)") (some "id")) "ref(\x27orders\x27)"
    "id" "ORDERS".data rfl rfl (by decide)

theorem writeRelTest_malformed (mname cname : String) (r : RelInfo)
    (h : r.«to» = none ∨ r.field = none ∨
      ∃ te, r.«to» = some te ∧ firstQuoted (pyUpper te).data = none) :
    ∃ e, writeRelTest mname cname (SchemaTest.map (some r)) = Except.error e := by
  obtain ⟨rto, rfield⟩ := r
  cases rto with
  | none => exact ⟨PyError.keyError "to", rfl⟩
  | some te =>
    rcases h with h | h | ⟨te2, hte2, hfq⟩
    · simp at h
    · simp only at h
      subst h
      cases hfq2 : firstQuoted (pyUpper te).data with
      | none => exact ⟨PyError.indexError, by simp [writeRelTest, hfq2]⟩
      | some tgt => exact ⟨PyError.keyError "field", by simp [writeRelTest, hfq2]⟩
    · simp only [Option.some.injEq] at hte2
      subst hte2
      exact ⟨PyError.indexError, by simp [writeRelTest, hfq]⟩

theorem runTests_error (mname cname : String) (ts : List SchemaTest)
    (t : SchemaTest) (ht : t ∈ ts)
    (he : ∃ e0, writeRelTest mname cname t = Except.error e0) :
    ∃ e, runTests mname cname ts = Except.error e := by
  induction ts with
  | nil => cases ht
  | cons t0 ts ih =>
    rcases List.mem_cons.mp ht with rfl | hmem
    · obtain ⟨e0, he0⟩ := he
      exact ⟨e0, by simp [runTests, he0]⟩
    · cases hw : writeRelTest mname cname t0 with
      | error e => exact ⟨e, by simp [runTests, hw]⟩
      | ok s =>
        obtain ⟨e, hrec⟩ := ih hmem
        exact ⟨e, by simp [runTests, hw, hrec]⟩

theorem runColumns_error (mname : String) (cs : List SchemaColumn)
    (c : SchemaColumn) (hc : c ∈ cs)
    (he : ∃ e0, runColumn mname c = Except.error e0) :
    ∃ e, runColumns mname cs = Except.error e := by
  induction cs with
  | nil => cases hc
  | cons c0 cs ih =>
    rcases List.mem_cons.mp hc with rfl | hmem
    · obtain ⟨e0, he0⟩ := he
      exact ⟨e0, by simp [runColumns, he0]⟩
    · cases hw : runColumn mname c0 with
      | error e => exact ⟨e, by simp [runColumns, hw]⟩
      | ok s =>
        obtain ⟨e, hrec⟩ := ih hmem
        exact ⟨e, by simp [runColumns, hw, hrec]⟩

theorem runModels_error (ms : List SchemaModel) (m : SchemaModel)
    (hm : m ∈ ms) (he : ∃ e0, runColumns m.name m.columns = Except.error e0) :
    ∃ e, runModels ms = Except.error e := by
  induction ms with
  | nil => cases hm
  | cons m0 ms ih =>
    rcases List.mem_cons.mp hm with rfl | hmem
    · obtain ⟨e0, he0⟩ := he
      exact ⟨e0, by simp [runModels, he0]⟩
    · cases hw : runColumns m0.name m0.columns with
      | error e => exact ⟨e, by simp [runModels, hw]⟩
      | ok s =>
        obtain ⟨e, hrec⟩ := ih hmem
        exact ⟨e, by simp [runModels, hw, hrec]⟩

/-- C8: a relationship test entry missing the `to` or `field` sub-key, or
whose `to` expression contains no quoted literal, makes relationship emission
for the whole schema fail with an unhandled fault: the run aborts rather than
skipping the single malformed entry. -/
theorem malformed_relationship_aborts (sch : Schema) (m : SchemaModel)
    (c : SchemaColumn) (ts : List SchemaTest) (r : RelInfo)
    (hm : m ∈ sch.models) (hc : c ∈ m.columns) (hts : c.tests = some ts)
    (ht : SchemaTest.map (some r) ∈ ts)
    (hmal : r.«to» = none ∨ r.field = none ∨
      ∃ te, r.«to» = some te ∧ firstQuoted (pyUpper te).data = none) :
    ∃ e, WriteRelationship sch = Except.error e := by
  have h1 := writeRelTest_malformed m.name c.name r hmal
  have h2 := runTests_error m.name c.name ts _ ht h1
  have h3 : ∃ e0, runColumn m.name c = Except.error e0 := by
    obtain ⟨e, he⟩ := h2
    exact ⟨e, by simp [runColumn, hts, he]⟩
  have h4 := runColumns_error m.name m.columns c hc h3
  exact runModels_error sch.models m hm h4

/-- Witness for C8: a `to` expression with no quoted literal aborts the run. -/
theorem malformed_relationship_aborts_witness :
    ∃ e, WriteRelationship (Schema.mk [SchemaModel.mk "m" none
        [SchemaColumn.mk "c" none
          (some [SchemaTest.map (some (RelInfo.mk (some "ref(orders)")
            (some "id")))])]]) = Except.error e :=
  malformed_relationship_aborts _
    (SchemaModel.mk "m" none [SchemaColumn.mk "c" none
      (some [SchemaTest.map (some (RelInfo.mk (some "ref(orders)") (some "id")))])])
    (SchemaColumn.mk "c" none
      (some [SchemaTest.map (some (RelInfo.mk (some "ref(orders)") (some "id")))]))
    [SchemaTest.map (some (RelInfo.mk (some "ref(orders)") (some "id")))]
    (RelInfo.mk (some "ref(orders)") (some "id"))
    (by simp) (by simp) rfl (by simp)
    (Or.inr (Or.inr ⟨"ref(orders)", rfl, by decide⟩))

/-- Traverse catalog nodes in declaration order, emitting a table block for
each node whose metadata name occurs in the allow-list. -/
def genTables (docs : List (String × String)) (sch : Schema)
    (tables : List String) : List (String × CatalogModel) → Except PyError String
  | [] => Except.ok ""
  | (_, model) :: rest =>
    if tables.contains model.metadata.name then
      match WriteTable docs sch model with
      | Except.error e => Except.error e
      | Except.ok s =>
        match genTables docs sch tables rest with
        | Except.error e => Except.error e
        | Except.ok s2 => Except.ok (s ++ s2)
    else genTables docs sch tables rest

/-- The generation driver: the upper-cased schema table names form the
allow-list, catalog nodes are traversed in declaration order with a table
block for each allow-listed node, and relationship lines follow all tables. -/
def GenerateDbml (docs : List (String × String)) (cat : Catalog)
    (sch : Schema) : Except PyError String :=
  match genTables docs sch (sch.models.map (fun m => pyUpper m.name)) cat.nodes with
  | Except.error e => Except.error e
  | Except.ok s =>
    match WriteRelationship sch with
    | Except.error e => Except.error e
    | Except.ok r => Except.ok (s ++ r)

/-- Specification-side description of table emission: one block per listed
catalog model, in order, concatenated. -/
def emitTablesFiltered (docs : List (String × String)) (sch : Schema) :
    List CatalogModel → Except PyError String
  | [] => Except.ok ""
  | m :: rest =>
    match WriteTable docs sch m with
    | Except.error e => Except.error e
    | Except.ok s =>
      match emitTablesFiltered docs sch rest with
      | Except.error e => Except.error e
      | Except.ok s2 => Except.ok (s ++ s2)

theorem genTables_eq_filtered (docs : List (String × String)) (sch : Schema)
    (tables : List String) :
    ∀ nodes : List (String × CatalogModel),
      genTables docs sch tables nodes =
        emitTablesFiltered docs sch
          ((nodes.map Prod.snd).filter (fun m => tables.contains m.metadata.name)) := by
  intro nodes
  induction nodes with
  | nil => rfl
  | cons p rest ih =>
    obtain ⟨key, model⟩ := p
    cases hmem : tables.contains model.metadata.name with
    | true =>
      simp only [genTables, hmem, if_true, List.map_cons, List.filter_cons,
        emitTablesFiltered, ih]
    | false =>
      simp only [genTables, hmem, List.map_cons, List.filter_cons, ih]
      simp

/-- C3 (amended): the driver emits exactly the catalog tables whose metadata
name occurs verbatim in the upper-cased allow-list (the catalog name is not
case-normalized before the membership test), one table block per such node in
catalog declaration order, followed by all relationship lines emitted once
after all tables. -/
theorem generateDbml_filter_order (docs : List (String × String))
    (cat : Catalog) (sch : Schema) :
    GenerateDbml docs cat sch =
      match emitTablesFiltered docs sch
          ((cat.nodes.map Prod.snd).filter (fun m =>
            (sch.models.map (fun sm => pyUpper sm.name)).contains m.metadata.name)) with
      | Except.error e => Except.error e
      | Except.ok s =>
        match WriteRelationship sch with
        | Except.error e => Except.error e
        | Except.ok r => Except.ok (s ++ r) := by
  unfold GenerateDbml
  rw [genTables_eq_filtered]

/-- C3 counterexample: a catalog table named `customers`, whose case-normalized
name `CUSTOMERS` is in the schema's upper-cased allow-list, is not emitted:
the driver tests the catalog name verbatim against the allow-list, so the run
produces no table block at all. -/
theorem generateDbml_case_cex :
    pyUpper "customers" = "CUSTOMERS" ∧
      (Schema.mk [SchemaModel.mk "customers" none []]).models.map
        (fun m => pyUpper m.name) = ["CUSTOMERS"] ∧
      GenerateDbml [] (Catalog.mk [("model.customers",
          CatalogModel.mk (CatalogMetadata.mk "customers") [])])
        (Schema.mk [SchemaModel.mk "customers" none []]) = Except.ok "" :=
  ⟨rfl, rfl, rfl⟩

end DbmlDocs
